import Mathlib

/-!
Shallow embedding of the bandicoot (ulfaslak fork) indicator engine.

Sources embedded here:
* `src/individual.py` — conversation segmentation (`_conversations`) and the
  indicator functions `percent_ei_percent_interactions`, `response_rate`,
  `response_delay`, `balance_of_interactions`, `ratio_call_text`,
  `percent_nocturnal`, `number_of_contacts`.
* `src/core.py` / `src/bandicoot_dev/core.py` — the `Record` value object and
  the `User.records` setter.
* `src/io.py` / `src/bandicoot_dev/io.py` — record filtering, deduplication
  and loading.

Python records are duck-typed: indicator code probes attributes with
`hasattr`.  This is modelled with `Option` fields (`none` = attribute absent
or the Python value `None`).  Timestamps are integer epoch seconds;
`timedelta` comparison is integer subtraction.  Python 2 semantics used by the
code are preserved where they matter: `None > 1` is `False`, integer division
with `from __future__ import division` is true division, and dividing by zero
raises `ZeroDivisionError` (modelled by `Except`).
-/

inductive Interaction where
  | call
  | text
  | physical
  | screen
  | stop
  | location
deriving DecidableEq

inductive Direction where
  | din
  | dout
deriving DecidableEq

/-- The `Record` value object of `core.py`: interaction kind, direction,
correspondent identifier, timestamp (epoch seconds), optional duration in
seconds, and a position reference.  Structural equality mirrors
`Record.__eq__`, which compares every slot. -/
structure Record where
  interaction : Option Interaction
  direction : Option Direction
  correspondent_id : Option Nat
  datetime : Int
  duration : Option ℚ
  position : Option Nat
deriving DecidableEq

/-- Keys of a Python dict / `Counter` / `defaultdict` in insertion order:
first occurrences, in order of first appearance. -/
def dedupFirst {α : Type} [DecidableEq α] : List α → List α
  | [] => []
  | a :: l => a :: (dedupFirst l).filter (fun b => b ≠ a)

/-- Stable insertion used by `sortLe`; equal elements keep their relative
order, as Python's `sorted` guarantees. -/
def insertLe {α : Type} (le : α → α → Bool) (a : α) : List α → List α
  | [] => [a]
  | b :: l => if le a b then a :: b :: l else b :: insertLe le a l

/-- Stable sort modelling Python's `sorted` with a key function
(pass `le a b := key a ≤ key b`). -/
def sortLe {α : Type} (le : α → α → Bool) : List α → List α
  | [] => []
  | a :: l => insertLe le a (sortLe le l)

/-- Python `r.interaction == "call" and r.duration > 1`: a call answered for
more than one second.  A record whose `duration` is `None` compares
`None > 1 == False` under Python 2. -/
def answeredCall (g : Record) : Bool :=
  g.interaction == some Interaction.call && g.duration.elim false (fun d => decide (1 < d))

/-- The guard `last_time is None or g.datetime - last_time < delta` of
`_conversations`. -/
def withinDelta (delta : Int) (lastTime : Option Int) (g : Record) : Bool :=
  lastTime.elim true (fun lt => decide (g.datetime - lt < delta))

/-- One iteration of the loop body of `_conversations` (src/individual.py,
lines 22-34).  State is `(results, last_time)`; the first component of the
output is the list of conversations emitted by this iteration. -/
def convStep (delta : Int) (st : List Record × Option Int) (g : Record) :
    List (List Record) × (List Record × Option Int) :=
  if withinDelta delta st.2 g then
    if answeredCall g then ([st.1 ++ [g]], ([], some g.datetime))
    else ([], (st.1 ++ [g], some g.datetime))
  else
    ((if st.1.isEmpty then [] else [st.1]), ([g], some g.datetime))

/-- Running `_conversations` from an intermediate state; the final
`if len(results) != 0: yield results` is the base case. -/
def conversationsRun (delta : Int) : List Record × Option Int → List Record → List (List Record)
  | st, [] => if st.1.isEmpty then [] else [st.1]
  | st, g :: tl =>
    let p := convStep delta st g
    p.1 ++ conversationsRun delta p.2 tl

/-- `_conversations(group, delta)` from src/individual.py: the call-inclusive
conversation segmentation over one correspondent's time-ordered records. -/
def conversationsOf (delta : Int) (group : List Record) : List (List Record) :=
  conversationsRun delta ([], none) group

/-- Grouping records per correspondent as done by
`interactions = defaultdict(list); interactions[r.correspondent_id].append(r)`:
keys in order of first appearance, each group keeping record order. -/
def groupByCorrespondent (rs : List Record) : List (List Record) :=
  (dedupFirst (rs.map (fun r => r.correspondent_id))).map
    (fun k => rs.filter (fun r => r.correspondent_id == k))

/-- Boolean conjunction check used by `gapsWithin`. -/
def gapsWithin (delta : Int) : Option Int → List Record → Bool
  | _, [] => true
  | lt, g :: tl => withinDelta delta lt g && gapsWithin delta (some g.datetime) tl

/-- Fixed-shape reduction record of the Summary Statistics reducer. -/
structure SummaryStats where
  mean : Option ℚ
  variance : Option ℚ
  median : Option ℚ
  momentThree : Option ℚ
  momentFour : Option ℚ
  smin : Option ℚ
  smax : Option ℚ
  n : Nat
deriving DecidableEq

/-- Modelled from the spec: `summary_stats` of `bandicoot_dev.helper.tools` is
not under src/.  Section 4.4 of the spec defines it as
`summarize(values) → {mean, std, median, skewness, kurtosis, min, max, n}`,
"defined for `n==0` as a record of no-data sentinels (not a crash, not
zeros)".  Standard deviation, skewness and kurtosis are the real-valued
functions `sqrt m2`, `m3 / m2^(3/2)` and `m4 / m2^2` of the rational central
moments recorded here, so the record below carries the same information. -/
def summary_stats (xs : List ℚ) : SummaryStats :=
  if xs.isEmpty then ⟨none, none, none, none, none, none, none, 0⟩
  else
    let n : ℚ := xs.length
    let mu := xs.sum / n
    let srt := sortLe (fun a b => decide (a ≤ b)) xs
    let med := if xs.length % 2 = 1 then srt.getD (xs.length / 2) 0
               else (srt.getD (xs.length / 2 - 1) 0 + srt.getD (xs.length / 2) 0) / 2
    ⟨some mu,
     some ((xs.map (fun x => (x - mu) ^ 2)).sum / n),
     some med,
     some ((xs.map (fun x => (x - mu) ^ 3)).sum / n),
     some ((xs.map (fun x => (x - mu) ^ 4)).sum / n),
     some (srt.headD 0),
     some (srt.getLastD 0),
     xs.length⟩

/-- `np.mean`: the arithmetic mean; `np.mean([])` is `NaN`, modelled `none`. -/
def npMean (xs : List ℚ) : Option ℚ :=
  if xs.isEmpty then none else some (xs.sum / xs.length)

/-- Python `filter(lambda x: x > 0, xs)` over floats that may be `NaN`
(`none`): `NaN > 0` is `False`, so `none` entries are discarded. -/
def posOnlyOpt (xs : List (Option ℚ)) : List ℚ :=
  xs.filterMap (fun o => o.bind (fun m => if 0 < m then some m else none))

/-- The generator inside `_mean_response_delay` (src/individual.py, lines
386-390): elapsed seconds of every immediately-adjacent pair `(a, b)` inside
one conversation with `a` incoming and `b` outgoing. -/
def inOutDelays (grouped : List Record) : List ℚ :=
  ((conversationsOf 3600 grouped).map (fun conv =>
    (conv.zip conv.tail).filterMap (fun p =>
      if p.2.direction = some Direction.dout ∧ p.1.direction = some Direction.din
      then some (((p.2.datetime - p.1.datetime : Int) : ℚ)) else none))).flatten

/-- `response_delay` (src/individual.py, lines 357-398): per correspondent,
`np.mean` of that contact's adjacent in→out delays; the per-contact means are
filtered with `x > 0` and reduced with `summary_stats`. -/
def response_delay (rs : List Record) : SummaryStats :=
  summary_stats (posOnlyOpt ((groupByCorrespondent rs).map (fun g => npMean (inOutDelays g))))

/-- The spec's words for the response-delay claim (refinement comparison):
"for every immediately-adjacent incoming→outgoing pair inside one
conversation, the elapsed seconds; non-positive values are discarded before
reduction; reduced via Summary Statistics" — all individual delays pooled,
then filtered, then reduced. -/
def response_delay_spec (rs : List Record) : SummaryStats :=
  summary_stats ((((groupByCorrespondent rs).map inOutDelays).flatten).filter (fun d => decide (0 < d)))

/-- Claim-side description of what the code actually reduces: per contact the
arithmetic mean `sum/length` of its adjacent in→out delays, kept only when
strictly positive. -/
def perContactPositiveMeans (rs : List Record) : List ℚ :=
  (groupByCorrespondent rs).filterMap (fun g =>
    let ds := inOutDelays g
    if ds.isEmpty then none
    else if 0 < ds.sum / ds.length then some (ds.sum / ds.length) else none)

/-- `_response_rate` (src/individual.py, lines 425-441): over one
correspondent's conversations, the fraction of conversations whose first
record is incoming that contain an outgoing record; `None` when no
conversation starts with an incoming record. -/
def respRateOf (grouped : List Record) : Option ℚ :=
  let convs := conversationsOf 3600 grouped
  let received := convs.filter (fun conv =>
    conv.head?.elim false (fun f => f.direction == some Direction.din))
  let responded := received.countP (fun conv =>
    conv.any (fun r => r.direction == some Direction.dout))
  if received.length = 0 then none else some ((responded : ℚ) / received.length)

/-- `response_rate` (src/individual.py, lines 400-447): group records per
correspondent, compute each contact's rate, drop the `None`s, reduce with
`summary_stats`. -/
def response_rate (rs : List Record) : SummaryStats :=
  summary_stats (((groupByCorrespondent rs).map respRateOf).filterMap id)

/-- `percent_ei_percent_interactions` branch test
`set(r.interaction for r in records) == {'text', 'call'}`. -/
def onlyTextAndCall (rs : List Record) : Bool :=
  rs.any (fun r => r.interaction == some Interaction.text) &&
  rs.any (fun r => r.interaction == some Interaction.call) &&
  rs.all (fun r => r.interaction == some Interaction.text || r.interaction == some Interaction.call)

/-- Duration of a record; the Python code sums `r.duration` over call records,
which always carry a numeric duration on the inputs the function accepts. -/
def durOf (r : Record) : ℚ := r.duration.getD 0

/-- The mixed text/call branch of `percent_ei_percent_interactions`
(src/individual.py, lines 144-160): per-correspondent text counts normalized
by the total text count plus per-correspondent summed call durations
normalized by total call duration, accumulated in a `defaultdict(int)` whose
keys appear in order text contacts first, then new call contacts. -/
def userCountMixed (rs : List Record) : List (Option Nat × ℚ) :=
  let texts := rs.filter (fun r => r.interaction == some Interaction.text)
  let calls := rs.filter (fun r => !(r.interaction == some Interaction.text))
  let sumT : ℚ := texts.length
  let sumC : ℚ := (calls.map durOf).sum
  let keys := dedupFirst ((texts.map (fun r => r.correspondent_id)) ++
                          (calls.map (fun r => r.correspondent_id)))
  keys.map (fun k => (k,
    ((texts.filter (fun r => r.correspondent_id == k)).length : ℚ) / sumT +
    ((calls.filter (fun r => r.correspondent_id == k)).map durOf).sum / sumC))

/-- The else branch `user_count = Counter(r.position for r in records)`
(src/individual.py, line 163). -/
def counterPositions (rs : List Record) : List (Option Nat × ℚ) :=
  (dedupFirst (rs.map (fun r => r.position))).map
    (fun k => (k, ((rs.map (fun r => r.position)).count k : ℚ)))

/-- Mass of a key in `user_count` (`user_count[user_id]`). -/
def massOf (uc : List (Option Nat × ℚ)) (k : Option Nat) : ℚ :=
  ((uc.find? (fun kv => kv.1 == k)).map (fun kv => kv.2)).getD 0

/-- The loop `while target > 0 and len(user_sort) > 0: user_id =
user_sort.pop(); target -= user_count[user_id]` — popping from the end of the
ascending list means consuming the argument (the reversed, descending list)
from its head.  Returns what is left of `user_sort`. -/
def popDesc (cnt : Option Nat → ℚ) : ℚ → List (Option Nat) → List (Option Nat)
  | _, [] => []
  | t, u :: rest => if t ≤ 0 then u :: rest else popDesc cnt (t - cnt u) rest

/-- `user_count` as selected by the branch on the interaction set. -/
def userCountOf (rs : List Record) : List (Option Nat × ℚ) :=
  if onlyTextAndCall rs then userCountMixed rs else counterPositions rs

/-- `percent_ei_percent_interactions` (src/individual.py, lines 131-172):
`target = int(math.ceil(sum(user_count.values()) * percentage))`, sort the
keys ascending by mass (Python's stable `sorted`), pop top contributors until
the target is exhausted, and return
`(len(user_count) - len(user_sort)) * 1.0 / len(records)`. -/
def percent_ei_percent_interactions (percentage : ℚ) (rs : List Record) : Option ℚ :=
  if rs.isEmpty then none
  else
    let uc := userCountOf rs
    let target : ℚ := ((⌈(uc.map (fun kv => kv.2)).sum * percentage⌉ : ℤ) : ℚ)
    let asc := sortLe (fun a b => decide (massOf uc a ≤ massOf uc b)) (uc.map (fun kv => kv.1))
    some (((uc.length : ℚ) - ((popDesc (massOf uc) target asc.reverse).length : ℚ)) / (rs.length : ℚ))

/-- Python exception surfaced by unguarded arithmetic. -/
inductive PyErr where
  | zeroDivision
deriving DecidableEq

/-- `balance_of_interactions` (src/individual.py, lines 203-229): counts
outgoing records and all records, then returns `counter_out * 1.0 / counter`;
the division is unguarded, so an empty partition raises `ZeroDivisionError`.
The `weighted` and `thresh` parameters of the source are never used by the
body and are omitted. -/
def balance_of_interactions (rs : List Record) : Except PyErr ℚ :=
  let counter_out := rs.countP (fun r => r.direction == some Direction.dout)
  let counter := rs.length
  if counter = 0 then .error .zeroDivision else .ok ((counter_out : ℚ) / counter)

/-- `ratio_call_text` (src/individual.py, lines 670-685): number of calls
divided by number of texts, optionally filtered by direction; the division is
unguarded, so a partition without texts raises `ZeroDivisionError`. -/
def ratio_call_text (direction : Option Direction) (rs : List Record) : Except PyErr ℚ :=
  match direction with
  | none =>
    let calls := (rs.filter (fun r => r.interaction == some Interaction.call)).length
    let texts := (rs.filter (fun r => r.interaction == some Interaction.text)).length
    if texts = 0 then .error .zeroDivision else .ok ((calls : ℚ) / texts)
  | some d =>
    let calls := (rs.filter (fun r =>
      r.direction == some d && r.interaction == some Interaction.call)).length
    let texts := (rs.filter (fun r =>
      r.direction == some d && r.interaction == some Interaction.text)).length
    if texts = 0 then .error .zeroDivision else .ok ((calls : ℚ) / texts)

/-- Time of day in seconds, `r.datetime.time()` as seconds since midnight. -/
def timeOfDay (r : Record) : Int := r.datetime % 86400

/-- The night classifier of `percent_nocturnal` (src/individual.py, lines
461-464) and `User.recompute_home` (src/core.py, lines 344-347): strictly
inside `(night_start, night_end)` when `night_start < night_end`, otherwise
not strictly inside `(night_end, night_start)`. -/
def isNocturnal (nightStart nightEnd t : Int) : Bool :=
  if nightStart < nightEnd then decide (nightEnd > t ∧ t > nightStart)
  else !(decide (nightEnd < t ∧ t < nightStart))

/-- `percent_nocturnal` (src/individual.py, lines 449-466): `None` on an
empty partition, otherwise the fraction of records whose time of day passes
the night filter. -/
def percent_nocturnal (nightStart nightEnd : Int) (rs : List Record) : Option ℚ :=
  if rs.isEmpty then none
  else some ((rs.countP (fun r => isNocturnal nightStart nightEnd (timeOfDay r)) : ℚ) /
             (rs.length : ℚ))

/-- The record filter of `number_of_contacts` (src/individual.py, lines
66-68): `(hasattr(r, 'duration') and r.duration > 5) or not
hasattr(r, 'duration')`. -/
def qualifyingDuration (r : Record) : Bool :=
  (r.duration.isSome && r.duration.elim false (fun d => decide (5 < d))) || !r.duration.isSome

/-- `number_of_contacts` (src/individual.py, lines 50-75): on an empty
partition `records[0]` raises `IndexError` (modelled `none`); otherwise count
the distinct correspondents (or positions, when the first record has no
correspondent attribute) whose number of qualifying records exceeds
`more`. -/
def number_of_contacts (more : Nat) (rs : List Record) : Option Nat :=
  match rs with
  | [] => none
  | r0 :: _ =>
    if r0.correspondent_id.isSome then
      let keys := (rs.filter qualifyingDuration).map (fun r => r.correspondent_id)
      some ((dedupFirst keys).countP (fun k => decide (more < keys.count k)))
    else
      let keys := rs.map (fun r => r.position)
      some ((dedupFirst keys).countP (fun k => decide (more < keys.count k)))

/-- Claim-side count of a contact's qualifying records: those belonging to
the correspondent whose duration is absent or strictly greater than 5. -/
def contactQualifyingCount (rs : List Record) (c : Option Nat) : Nat :=
  (rs.filter (fun r => r.correspondent_id == c &&
    (r.duration.isNone || r.duration.elim false (fun d => decide (5 < d))))).length

/-- Claim-side set of counted contacts: distinct correspondents with strictly
more than one qualifying record. -/
def countedContacts (rs : List Record) : List (Option Nat) :=
  (dedupFirst (rs.map (fun r => r.correspondent_id))).filter
    (fun c => decide (1 < contactQualifyingCount rs c))

/-- Sorting a record list chronologically,
`sorted(input, key=lambda r: r.datetime)` (stable). -/
def sortByDatetime (rs : List Record) : List Record :=
  sortLe (fun a b => decide (a.datetime ≤ b.datetime)) rs

/-- The `User.records` setter (src/bandicoot_dev/core.py, lines 184-205) and
likewise the `User.cellular_records` setter (src/core.py, lines 162-177):
`self._records = sorted(input, key=lambda r: r.datetime)` — whatever order the
input has, it is silently sorted, never rejected. -/
def setRecords (input : List Record) : List Record :=
  sortByDatetime input

/-- The validity scheme of `filter_record` in src/io.py (lines 159-165):
interaction must be one of `call`, `text`, `physical`, `location` or the
empty value; direction one of `in`, `out` or empty; a correspondent id must be
present; a call must carry a numeric duration.  The `datetime` test
`isinstance(r.datetime, datetime)` always holds in this embedding, where every
timestamp is an integer. -/
def ioSchemeValid (r : Record) : Bool :=
  (r.interaction == some Interaction.call || r.interaction == some Interaction.text ||
   r.interaction == some Interaction.physical || r.interaction == some Interaction.location ||
   r.interaction == none) &&
  (r.direction == some Direction.din || r.direction == some Direction.dout ||
   r.direction == none) &&
  r.correspondent_id.isSome &&
  (if r.interaction == some Interaction.call then r.duration.isSome else true)

/-- The generator `_filter` of `filter_record` (src/io.py, lines 178-192):
yields the records passing every scheme test, in order, dropping the rest. -/
def ioFilterKept : List Record → List Record
  | [] => []
  | r :: tl => if ioSchemeValid r then r :: ioFilterKept tl else ioFilterKept tl

/-- The `ignored['all']` tally of `_filter`: how many records were dropped. -/
def ioFilterIgnoredAll : List Record → Nat
  | [] => 0
  | r :: tl => (if ioSchemeValid r then 0 else 1) + ioFilterIgnoredAll tl

/-- `sort_records` (src/io.py, lines 152-157):
`sorted(set(records), key=lambda r: r.datetime)` — deduplicate (Python `set`
uses `Record.__eq__`/`__hash__`), then sort chronologically. -/
def sort_records (rs : List Record) : List Record :=
  sortByDatetime (dedupFirst rs)

/-- `filter_record` (src/io.py, lines 134-193): the kept records, deduplicated
and sorted, together with the `ignored['all']` count. -/
def filter_record (rs : List Record) : List Record × Nat :=
  (sort_records (ioFilterKept rs), ioFilterIgnoredAll rs)

/-- The validity scheme of `filter_record` in src/bandicoot_dev/io.py (lines
150-156): only `call` and `text` interactions, only `in`/`out` directions. -/
def validDev (r : Record) : Bool :=
  (r.interaction == some Interaction.call || r.interaction == some Interaction.text) &&
  (r.direction == some Direction.din || r.direction == some Direction.dout) &&
  r.correspondent_id.isSome &&
  (if r.interaction == some Interaction.call then r.duration.isSome else true)

/-- The record list stored on the user by `load` in src/bandicoot_dev/io.py
(lines 187-274): `user.records, ... = filter_record(records)` (no
deduplication there), the setter sorts; then lines 265-269 compute
`sorted_min_records = sorted(set(user.records), key=...)` and reassign
`user.records = sorted_min_records` only inside
`if num_dup > 0 and warnings:`. -/
def devLoadRecords (records : List Record) (warnings : Bool) : List Record :=
  let stored := setRecords (records.filter validDev)
  let sorted_min_records := sortByDatetime (dedupFirst stored)
  let num_dup := stored.length - sorted_min_records.length
  if 0 < num_dup && warnings then setRecords sorted_min_records else stored

/-! Concrete inputs used by the witnesses and counterexamples. -/

/-- Ten text records whose positions are visited with frequencies
5, 3, 1, 1 — the mass distribution `{A:5, B:3, C:1, D:1}` of the spec's
Pareto example, over 10 records. -/
def exC1 : List Record :=
  [⟨some .text, some .din, some 0, 0, none, some 1⟩,
   ⟨some .text, some .din, some 0, 1, none, some 1⟩,
   ⟨some .text, some .din, some 0, 2, none, some 1⟩,
   ⟨some .text, some .din, some 0, 3, none, some 1⟩,
   ⟨some .text, some .din, some 0, 4, none, some 1⟩,
   ⟨some .text, some .din, some 0, 5, none, some 2⟩,
   ⟨some .text, some .din, some 0, 6, none, some 2⟩,
   ⟨some .text, some .din, some 0, 7, none, some 2⟩,
   ⟨some .text, some .din, some 0, 8, none, some 3⟩,
   ⟨some .text, some .din, some 0, 9, none, some 4⟩]

/-- A single incoming answered call (duration 10 s): its conversation starts
with an incoming record that is not a text. -/
def exC2 : Record := ⟨some .call, some .din, some 1, 0, some 10, none⟩

/-- A text, then an answered call arriving after a gap larger than the 1-hour
timeout, then another text 30 minutes after the call. -/
def exC3a : Record := ⟨some .text, some .din, some 1, 0, none, none⟩

/-- The answered call of the C3 counterexample. -/
def exC3b : Record := ⟨some .call, some .dout, some 1, 7200, some 100, none⟩

/-- The trailing text of the C3 counterexample. -/
def exC3c : Record := ⟨some .text, some .din, some 1, 9000, none, none⟩

/-- One contact, one conversation `in@0, out@0, in@60, out@120`: adjacent
in→out delays 0 and 60 seconds. -/
def exC4 : List Record :=
  [⟨some .text, some .din, some 7, 0, none, none⟩,
   ⟨some .text, some .dout, some 7, 0, none, none⟩,
   ⟨some .text, some .din, some 7, 60, none, none⟩,
   ⟨some .text, some .dout, some 7, 120, none, none⟩]

/-- Ten text records, 7 outgoing and 3 incoming (the spec's balance
example). -/
def exC5bal : List Record :=
  [⟨some .text, some .dout, some 1, 0, none, none⟩,
   ⟨some .text, some .dout, some 1, 1, none, none⟩,
   ⟨some .text, some .dout, some 1, 2, none, none⟩,
   ⟨some .text, some .dout, some 1, 3, none, none⟩,
   ⟨some .text, some .dout, some 1, 4, none, none⟩,
   ⟨some .text, some .dout, some 1, 5, none, none⟩,
   ⟨some .text, some .dout, some 1, 6, none, none⟩,
   ⟨some .text, some .din, some 1, 7, none, none⟩,
   ⟨some .text, some .din, some 1, 8, none, none⟩,
   ⟨some .text, some .din, some 1, 9, none, none⟩]

/-- A partition with one call and no texts. -/
def exC5call : Record := ⟨some .call, some .dout, some 2, 0, some 30, none⟩

/-- Four records at times of day 23:30, 06:59, 12:00 and 07:01. -/
def exC7 : List Record :=
  [⟨some .stop, none, none, 84600, some 1, some 1⟩,
   ⟨some .stop, none, none, 25140, some 1, some 1⟩,
   ⟨some .stop, none, none, 43200, some 1, some 1⟩,
   ⟨some .stop, none, none, 25260, some 1, some 1⟩]

/-- A valid call record used twice to form an exact-duplicate input. -/
def exC8 : Record := ⟨some .call, some .din, some 1, 5, some 10, some 0⟩

/-- A valid call record at time 100. -/
def exC9a : Record := ⟨some .call, some .din, some 1, 100, some 10, none⟩

/-- A valid call record at time 50, later in the input but earlier in time. -/
def exC9b : Record := ⟨some .call, some .din, some 2, 50, some 10, none⟩

/-- A record with interaction kind `screen`, unknown to the src/io.py
scheme. -/
def exC9bad : Record := ⟨some .screen, none, some 3, 10, some 60, none⟩

/-- Contact 1: two long calls; contact 2: a single text; contact 3: two calls
of at most 5 seconds. -/
def exC10 : List Record :=
  [⟨some .call, some .din, some 1, 0, some 10, none⟩,
   ⟨some .call, some .dout, some 1, 10, some 20, none⟩,
   ⟨some .text, some .din, some 2, 20, none, none⟩,
   ⟨some .call, some .din, some 3, 30, some 3, none⟩,
   ⟨some .call, some .dout, some 3, 40, some 4, none⟩]

/-! Helper lemmas. -/

theorem mem_dedupFirst {α : Type} [DecidableEq α] (a : α) (l : List α) :
    a ∈ dedupFirst l ↔ a ∈ l := by
  induction l with
  | nil => simp [dedupFirst]
  | cons b l ih =>
    by_cases hab : a = b
    · subst hab; simp [dedupFirst]
    · simp [dedupFirst, hab, ih]

theorem nodup_dedupFirst {α : Type} [DecidableEq α] (l : List α) : (dedupFirst l).Nodup := by
  induction l with
  | nil => simp [dedupFirst]
  | cons b l ih =>
    refine List.Nodup.cons ?_ (ih.filter _)
    intro hmem
    have := List.of_mem_filter hmem
    simp at this

theorem insertLe_perm {α : Type} (le : α → α → Bool) (a : α) (l : List α) :
    (insertLe le a l).Perm (a :: l) := by
  induction l with
  | nil => exact List.Perm.refl _
  | cons b l ih =>
    by_cases h : le a b
    · simp [insertLe, h]
    · simpa [insertLe, h] using (ih.cons b).trans (List.Perm.swap a b l)

theorem sortLe_perm {α : Type} (le : α → α → Bool) (l : List α) : (sortLe le l).Perm l := by
  induction l with
  | nil => exact List.Perm.refl _
  | cons a l ih => exact (insertLe_perm le a (sortLe le l)).trans (ih.cons a)

theorem mem_insertLe {α : Type} (le : α → α → Bool) (a x : α) (l : List α) :
    x ∈ insertLe le a l ↔ x = a ∨ x ∈ l := by
  have := (insertLe_perm le a l).mem_iff (a := x)
  simpa using this

theorem pairwise_insertLe {α : Type} (le : α → α → Bool)
    (htrans : ∀ a b c, le a b = true → le b c = true → le a c = true)
    (htot : ∀ a b, le a b = true ∨ le b a = true) (a : α) (l : List α)
    (h : l.Pairwise (fun x y => le x y = true)) :
    (insertLe le a l).Pairwise (fun x y => le x y = true) := by
  induction l with
  | nil => simp [insertLe]
  | cons b l ih =>
    rcases List.pairwise_cons.mp h with ⟨hb, hl⟩
    by_cases hab : le a b
    · simp only [insertLe, hab, if_pos]
      refine List.pairwise_cons.mpr ⟨?_, h⟩
      intro x hx
      rcases List.mem_cons.mp hx with hx | hx
      · subst hx; exact hab
      · exact htrans a b x hab (hb x hx)
    · simp only [insertLe, hab, if_neg, Bool.not_eq_true]
      have hba : le b a = true := by
        rcases htot a b with h1 | h1
        · exact absurd h1 hab
        · exact h1
      refine List.pairwise_cons.mpr ⟨?_, ih hl⟩
      intro x hx
      rcases (mem_insertLe le a x l).mp hx with hx | hx
      · subst hx; exact hba
      · exact hb x hx

theorem pairwise_sortLe {α : Type} (le : α → α → Bool)
    (htrans : ∀ a b c, le a b = true → le b c = true → le a c = true)
    (htot : ∀ a b, le a b = true ∨ le b a = true) (l : List α) :
    (sortLe le l).Pairwise (fun x y => le x y = true) := by
  induction l with
  | nil => simp [sortLe]
  | cons a l ih => exact pairwise_insertLe le htrans htot a (sortLe le l) ih

theorem countP_eq_of_nodup_mem_iff {α : Type} {l1 l2 : List α} (p : α → Bool)
    (h1 : l1.Nodup) (h2 : l2.Nodup)
    (hmem : ∀ a, p a = true → (a ∈ l1 ↔ a ∈ l2)) :
    l1.countP p = l2.countP p := by
  rw [List.countP_eq_length_filter, List.countP_eq_length_filter]
  apply List.Perm.length_eq
  rw [List.perm_ext_iff_of_nodup (h1.filter p) (h2.filter p)]
  intro a
  by_cases hpa : p a = true
  · simp [List.mem_filter, hpa, hmem a hpa]
  · simp [List.mem_filter, hpa]

theorem conversationsRun_no_inner_answered (delta : Int) :
    ∀ (rs : List Record) (results : List Record) (lastTime : Option Int),
      gapsWithin delta lastTime rs = true →
      results.all (fun r => !answeredCall r) = true →
      ∀ conv ∈ conversationsRun delta (results, lastTime) rs,
        ∀ r ∈ conv.dropLast, answeredCall r = false := by
  intro rs
  induction rs with
  | nil =>
    intro results lastTime _ hres conv hconv r hr
    by_cases he : results.isEmpty
    · simp [conversationsRun, he] at hconv
    · simp [conversationsRun, he] at hconv
      have hrr : r ∈ results := List.dropLast_subset _ (hconv ▸ hr)
      simpa using List.all_eq_true.mp hres r hrr
  | cons g tl ih =>
    intro results lastTime hgaps hres conv hconv r hr
    rw [gapsWithin, Bool.and_eq_true] at hgaps
    obtain ⟨hw, hg⟩ := hgaps
    by_cases hac : answeredCall g
    · simp only [conversationsRun, convStep, hw, if_true, hac, List.mem_append,
        List.mem_singleton] at hconv
      rcases hconv with hconv | hconv
      · subst hconv
        rw [List.dropLast_concat] at hr
        simpa using List.all_eq_true.mp hres r hr
      · exact ih [] (some g.datetime) hg (by simp) conv hconv r hr
    · simp only [conversationsRun, convStep, hw, if_true, hac, if_false,
        List.nil_append, List.mem_append] at hconv
      refine ih (results ++ [g]) (some g.datetime) hg ?_ conv (by simpa using hconv) r hr
      rw [List.all_append]
      simp only [Bool.and_eq_true]
      exact ⟨hres, by simp [hac]⟩

/-- C3 counterexample: on `[text@0, call(duration 100)@7200, text@9000]` with
the one-hour timeout, the answered call arrives after a gap, so it only opens
the new conversation; the emitted conversation `[call, text]` continues past
the answered call, contradicting "the conversation is immediately closed and
emitted if and only if that call's duration is strictly greater than 1". -/
theorem conversations_gap_call_counterexample :
    conversationsOf 3600 [exC3a, exC3b, exC3c] = [[exC3a], [exC3b, exC3c]] ∧
    answeredCall exC3b = true ∧
    ((conversationsOf 3600 [exC3a, exC3b, exC3c]).getD 1 []).dropLast = [exC3b] := by
  refine ⟨by decide, by decide, by decide⟩

/-- C3 (amended): when a record arrives within the timeout of the previous
record (or is the first record), it is appended to the open conversation, and
the conversation is immediately closed and emitted iff the record is a call
with duration strictly greater than 1; a call arriving at or after the
timeout gap instead closes the previous conversation by timeout and opens the
new conversation `[g]` without closing it, whatever its duration; and on any
sequence whose consecutive gaps all stay below the timeout, no emitted
conversation continues past an answered call. -/
theorem conversations_call_close_characterization :
    (∀ (delta : Int) (results : List Record) (lastTime : Option Int) (g : Record),
      withinDelta delta lastTime g = true →
        convStep delta (results, lastTime) g =
          if answeredCall g then ([results ++ [g]], ([], some g.datetime))
          else ([], (results ++ [g], some g.datetime))) ∧
    (∀ (delta : Int) (results : List Record) (lt : Int) (g : Record),
      delta ≤ g.datetime - lt →
        convStep delta (results, some lt) g =
          ((if results.isEmpty then [] else [results]), ([g], some g.datetime))) ∧
    (∀ (delta : Int) (rs : List Record),
      gapsWithin delta none rs = true →
      ∀ conv ∈ conversationsOf delta rs, ∀ r ∈ conv.dropLast, answeredCall r = false) := by
  refine ⟨?_, ?_, ?_⟩
  · intro delta results lastTime g hw
    simp [convStep, hw]
  · intro delta results lt g hge
    have hw : withinDelta delta (some lt) g = false := by
      simp only [withinDelta, Option.elim, decide_eq_false_iff_not]
      omega
    simp [convStep, hw]
  · intro delta rs hg conv hconv r hr
    exact conversationsRun_no_inner_answered delta rs [] none hg (by simp) conv hconv r hr

/-- Witness for the C3 theorem at concrete inputs: a within-timeout text is
appended without closing, a within-timeout answered call closes, a
post-timeout answered call only opens the new conversation. -/
theorem conversations_call_close_characterization_witness :
    (withinDelta 3600 (some 0) exC3c = false ∧ withinDelta 3600 (some 8000) exC3c = true ∧
     convStep 3600 ([exC3a], some 8000) exC3c = ([], ([exC3a, exC3c], some 9000))) ∧
    ((3600:ℤ) ≤ exC3b.datetime - 0 ∧
     convStep 3600 ([exC3a], some 0) exC3b = ([[exC3a]], ([exC3b], some 7200))) ∧
    (gapsWithin 3600 none [exC3a, exC3c] = false ∧ gapsWithin 3600 none [exC3b, exC3c] = true ∧
     ∀ conv ∈ conversationsOf 3600 [exC3b, exC3c], ∀ r ∈ conv.dropLast, answeredCall r = false) := by
  refine ⟨⟨by decide, by decide, ?_⟩, ⟨by decide, ?_⟩, ⟨by decide, by decide, ?_⟩⟩
  · exact (conversations_call_close_characterization.1 3600 [exC3a] (some 8000) exC3c
      (by decide)).trans (by decide)
  · exact (conversations_call_close_characterization.2.1 3600 [exC3a] 0 exC3b
      (by decide)).trans (by decide)
  · exact conversations_call_close_characterization.2.2 3600 [exC3b, exC3c] (by decide)

/-- C1: the code divides the number of top contacts by `len(records)`, not by
the number of distinct contacts.  On the spec's Pareto distribution
`{A:5, B:3, C:1, D:1}` realized as 10 records the top 2 of 4 contacts reach
the 80% target, so the claim expects `2/4 = 0.5`; the code returns
`2/10 = 0.2`, contradicting its own docstring "Percentage of contacts that
account for 80% of interactions". -/
theorem percent_ei_interactions_divides_by_records :
    percent_ei_percent_interactions (8/10) exC1 = some (1/5) ∧ ((1:ℚ)/5) ≠ ((1:ℚ)/2) := by
  constructor
  · have huc : userCountOf exC1 = [(some 1, (5:ℚ)), (some 2, 3), (some 3, 1), (some 4, 1)] := by
      decide
    have hne : exC1.isEmpty = false := by decide
    have hlen : exC1.length = 10 := by decide
    norm_num [percent_ei_percent_interactions, hne, huc, hlen, massOf, sortLe, insertLe, popDesc]
  · norm_num

/-- C2: `response_rate` tests only `first.direction == 'in'`, not that the
conversation starts with an incoming text.  A contact whose single
conversation is one incoming answered call is counted as an
incoming-initiated conversation with no response: the reduction receives the
rate 0 (n = 1) instead of the no-data reduction over zero rates that the
claim (and the function's own docstring) prescribes. -/
theorem response_rate_counts_call_conversation :
    response_rate [exC2] = summary_stats [0] ∧
    (summary_stats [0]).n = 1 ∧ (summary_stats []).n = 0 := by
  refine ⟨?_, rfl, rfl⟩
  have h1 : response_rate [exC2] = summary_stats [((0:ℕ):ℚ)/((1:ℕ):ℚ)] := rfl
  have h2 : ((0:ℕ):ℚ)/((1:ℕ):ℚ) = 0 := by norm_num
  rw [h1, h2]

/-- C4 counterexample: one contact with conversation `in@0, out@0, in@60,
out@120` has adjacent in→out delays 0 and 60.  The claim's computation
(pool the delays, discard the non-positive 0, reduce) yields mean 60; the
code first averages the delays per contact (mean 30, positive, kept) and
reduces the per-contact means, yielding mean 30. -/
theorem response_delay_pools_vs_means_counterexample :
    (response_delay exC4).mean = some 30 ∧ (response_delay_spec exC4).mean = some 60 ∧
    response_delay exC4 ≠ response_delay_spec exC4 := by
  have hmap : (groupByCorrespondent exC4).map (fun g => npMean (inOutDelays g)) =
      [npMean [(0:ℚ), 60]] := rfl
  have hmean : npMean [(0:ℚ), 60] = some 30 := by norm_num [npMean]
  have h1 : response_delay exC4 = summary_stats [30] := by
    rw [response_delay, hmap, hmean]
    congr 1
  have hflat : ((groupByCorrespondent exC4).map inOutDelays).flatten.filter
      (fun d => decide (0 < d)) = [(60:ℚ)] := by decide
  have h2 : response_delay_spec exC4 = summary_stats [60] := by
    rw [response_delay_spec, hflat]
  have hm1 : (summary_stats [(30:ℚ)]).mean = some 30 := by
    norm_num [summary_stats]
  have hm2 : (summary_stats [(60:ℚ)]).mean = some 60 := by
    norm_num [summary_stats]
  refine ⟨by rw [h1, hm1], by rw [h2, hm2], ?_⟩
  intro h
  have hc := congrArg SummaryStats.mean h
  rw [h1, h2, hm1, hm2] at hc
  exact absurd (Option.some.inj hc) (by norm_num)

/-- C4 (amended): `response_delay` computes, for each contact, the arithmetic
mean of the elapsed seconds over that contact's immediately-adjacent
incoming→outgoing pairs inside conversations; contacts with no such pair or
whose mean is not strictly positive are discarded; the per-contact means (not
the individual delays) are reduced via Summary Statistics. -/
theorem response_delay_reduces_per_contact_means (rs : List Record) :
    response_delay rs = summary_stats (perContactPositiveMeans rs) := by
  rw [response_delay, perContactPositiveMeans, posOnlyOpt, List.filterMap_map]
  congr 1
  apply List.filterMap_congr
  intro g _
  simp only [Function.comp_apply, npMean]
  by_cases hds : (inOutDelays g).isEmpty
  · simp [hds]
  · simp [hds]

/-- C5 counterexample: `ratio_call_text` on a partition with one call and no
texts raises `ZeroDivisionError` instead of returning the no-data sentinel,
and `balance_of_interactions` does the same on an empty partition. -/
theorem ratio_balance_raise_counterexample :
    ratio_call_text none [exC5call] = Except.error PyErr.zeroDivision ∧
    balance_of_interactions [] = Except.error PyErr.zeroDivision :=
  ⟨rfl, rfl⟩

/-- C5 (amended): the two unguarded counting/ratio indicators raise
`ZeroDivisionError` exactly when their denominator is zero —
`balance_of_interactions` on an empty partition, `ratio_call_text` when the
(direction-filtered) partition contains no text — and otherwise return a
plain rational (for the balance, one between 0 and 1), never NaN or
infinity. -/
theorem division_guard_characterization :
    (∀ rs : List Record,
      balance_of_interactions rs = Except.error PyErr.zeroDivision ↔ rs = []) ∧
    (∀ rs : List Record, rs ≠ [] →
      ∃ q, balance_of_interactions rs = Except.ok q ∧ 0 ≤ q ∧ q ≤ 1) ∧
    (∀ rs : List Record,
      ratio_call_text none rs = Except.error PyErr.zeroDivision ↔
        ∀ r ∈ rs, r.interaction ≠ some Interaction.text) ∧
    (∀ (d : Direction) (rs : List Record),
      ratio_call_text (some d) rs = Except.error PyErr.zeroDivision ↔
        ∀ r ∈ rs, ¬(r.direction = some d ∧ r.interaction = some Interaction.text)) := by
  refine ⟨?_, ?_, ?_, ?_⟩
  · intro rs
    by_cases h : rs.length = 0
    · simp [balance_of_interactions, h, List.length_eq_zero.mp h]
    · have : rs ≠ [] := fun hnil => h (by simp [hnil])
      simp [balance_of_interactions, h, this]
  · intro rs hne
    have h : rs.length ≠ 0 := by simpa using fun hnil => hne (List.length_eq_zero.mp hnil)
    refine ⟨(rs.countP (fun r => r.direction == some Direction.dout) : ℚ) / (rs.length : ℚ),
      ?_, ?_, ?_⟩
    · simp [balance_of_interactions, h]
    · positivity
    · rw [div_le_one (show (0:ℚ) < (rs.length : ℚ) by exact_mod_cast Nat.pos_of_ne_zero h)]
      exact_mod_cast List.countP_le_length _
  · intro rs
    constructor
    · intro h r hr htext
      by_cases hz : (rs.filter (fun r => r.interaction == some Interaction.text)).length = 0
      · rw [List.length_eq_zero, List.filter_eq_nil_iff] at hz
        exact hz r hr (by simp [htext])
      · simp [ratio_call_text, hz] at h
    · intro hall
      have hz : (rs.filter (fun r => r.interaction == some Interaction.text)).length = 0 := by
        rw [List.length_eq_zero, List.filter_eq_nil_iff]
        intro r hr
        simpa using hall r hr
      simp [ratio_call_text, hz]
  · intro d rs
    constructor
    · intro h r hr hpred
      by_cases hz : (rs.filter (fun r =>
          r.direction == some d && r.interaction == some Interaction.text)).length = 0
      · rw [List.length_eq_zero, List.filter_eq_nil_iff] at hz
        exact hz r hr (by simp [hpred.1, hpred.2])
      · simp [ratio_call_text, hz] at h
    · intro hall
      have hz : (rs.filter (fun r =>
          r.direction == some d && r.interaction == some Interaction.text)).length = 0 := by
        rw [List.length_eq_zero, List.filter_eq_nil_iff]
        intro r hr
        have := hall r hr
        simp only [Bool.and_eq_true, beq_iff_eq]
        tauto
      simp [ratio_call_text, hz]

/-- Witness for the C5 theorem: the spec's own balance example (7 outgoing of
10) yields a plain value in `[0, 1]`, and the counterexample call partition
satisfies the error characterization. -/
theorem division_guard_characterization_witness :
    exC5bal ≠ [] ∧
    (∃ q, balance_of_interactions exC5bal = Except.ok q ∧ 0 ≤ q ∧ q ≤ 1) ∧
    (ratio_call_text none [exC5call] = Except.error PyErr.zeroDivision ↔
      ∀ r ∈ [exC5call], r.interaction ≠ some Interaction.text) :=
  ⟨by decide, division_guard_characterization.2.1 exC5bal (by decide),
   division_guard_characterization.2.2.1 [exC5call]⟩

/-- C7: when the night window wraps past midnight (`night_start > night_end`)
a record is nocturnal iff its time of day is at most `night_end` or at least
`night_start` — that is, not strictly inside the open interval
`(night_end, night_start)`; when `night_start < night_end` it is nocturnal
iff strictly inside `(night_start, night_end)`; `percent_nocturnal` reports
the fraction of such records. -/
theorem percent_nocturnal_window :
    (∀ (ns ne : Int) (rs : List Record), rs ≠ [] → ne < ns →
      percent_nocturnal ns ne rs =
        some ((rs.countP (fun r => decide (timeOfDay r ≤ ne ∨ ns ≤ timeOfDay r)) : ℚ) /
              (rs.length : ℚ))) ∧
    (∀ (ns ne : Int) (rs : List Record), rs ≠ [] → ns < ne →
      percent_nocturnal ns ne rs =
        some ((rs.countP (fun r => decide (ns < timeOfDay r ∧ timeOfDay r < ne)) : ℚ) /
              (rs.length : ℚ))) := by
  constructor
  · intro ns ne rs hne hlt
    have hE : rs.isEmpty = false := by
      cases rs with
      | nil => exact absurd rfl hne
      | cons a l => rfl
    have hcount : rs.countP (fun r => isNocturnal ns ne (timeOfDay r)) =
        rs.countP (fun r => decide (timeOfDay r ≤ ne ∨ ns ≤ timeOfDay r)) := by
      apply List.countP_congr
      intro r _
      unfold isNocturnal
      rw [if_neg (by omega)]
      simp only [Bool.not_eq_true', decide_eq_false_iff_not, decide_eq_true_eq]
      omega
    simp only [percent_nocturnal, hE, Bool.false_eq_true, if_false, hcount]
  · intro ns ne rs hne hlt
    have hE : rs.isEmpty = false := by
      cases rs with
      | nil => exact absurd rfl hne
      | cons a l => rfl
    have hcount : rs.countP (fun r => isNocturnal ns ne (timeOfDay r)) =
        rs.countP (fun r => decide (ns < timeOfDay r ∧ timeOfDay r < ne)) := by
      apply List.countP_congr
      intro r _
      unfold isNocturnal
      rw [if_pos hlt]
      simp only [decide_eq_true_eq]
      omega
    simp only [percent_nocturnal, hE, Bool.false_eq_true, if_false, hcount]

/-- Witness for the C7 theorem at the spec's wraparound example: window
22:00-07:00, records at 23:30 and 06:59 are nocturnal, records at 12:00 and
07:01 are not, so the fraction is 1/2. -/
theorem percent_nocturnal_window_witness :
    exC7 ≠ [] ∧ (25200:ℤ) < 79200 ∧
    percent_nocturnal 79200 25200 exC7 = some (1/2) := by
  refine ⟨by decide, by decide, ?_⟩
  rw [percent_nocturnal_window.1 79200 25200 exC7 (by decide) (by decide)]
  norm_num [exC7, timeOfDay, List.countP_cons]

/-- C8: in `load` of src/bandicoot_dev/io.py the deduplicated list is only
assigned back to `user.records` inside `if num_dup > 0 and warnings:`; with
warnings disabled (the signature default) an exact duplicate record survives
loading, so the stored list contains two equal records; with warnings enabled
the duplicate is collapsed.  By contrast the src/io.py path deduplicates
unconditionally: `filter_record` always returns a duplicate-free list. -/
theorem dev_load_keeps_duplicates :
    devLoadRecords [exC8, exC8] false = [exC8, exC8] ∧
    ¬ (devLoadRecords [exC8, exC8] false).Nodup ∧
    devLoadRecords [exC8, exC8] true = [exC8] ∧
    (∀ rs : List Record, ((filter_record rs).1).Nodup) := by
  refine ⟨by decide, by decide, by decide, ?_⟩
  intro rs
  exact ((sortLe_perm _ (dedupFirst (ioFilterKept rs))).nodup_iff).mpr
    (nodup_dedupFirst (ioFilterKept rs))

/-- C9 counterexample: the records setter silently reorders an unsorted input
(no error is raised — the setter is a total function), and `filter_record`
silently drops a record whose interaction kind is unknown to its scheme,
merely counting it in the ignored tally. -/
theorem core_reorders_and_drops :
    setRecords [exC9a, exC9b] = [exC9b, exC9a] ∧
    [exC9b, exC9a] ≠ [exC9a, exC9b] ∧
    (filter_record [exC9bad]).1 = [] ∧ (filter_record [exC9bad]).2 = 1 := by
  refine ⟨by decide, by decide, by decide, by decide⟩

/-- C9 (amended): the core never fails fast on contract violations — the
records setter totally sorts any input into chronological order (a
permutation of the input), and `filter_record` silently keeps exactly the
scheme-valid records (dropping invalid ones and counting them in the ignored
tally), returning them deduplicated and chronologically sorted. -/
theorem setter_sorts_and_filter_drops :
    (∀ rs : List Record, (setRecords rs).Perm rs ∧
      (setRecords rs).Pairwise (fun a b => a.datetime ≤ b.datetime)) ∧
    (∀ rs : List Record, ioFilterKept rs = rs.filter ioSchemeValid ∧
      ioFilterIgnoredAll rs = rs.countP (fun r => !ioSchemeValid r)) ∧
    (∀ rs : List Record, ((filter_record rs).1).Perm (dedupFirst (rs.filter ioSchemeValid)) ∧
      ((filter_record rs).1).Pairwise (fun a b => a.datetime ≤ b.datetime)) := by
  have htrans : ∀ a b c : Record, (decide (a.datetime ≤ b.datetime)) = true →
      (decide (b.datetime ≤ c.datetime)) = true →
      (decide (a.datetime ≤ c.datetime)) = true := by
    intro a b c h1 h2
    simp only [decide_eq_true_eq] at h1 h2 ⊢
    omega
  have htot : ∀ a b : Record, (decide (a.datetime ≤ b.datetime)) = true ∨
      (decide (b.datetime ≤ a.datetime)) = true := by
    intro a b
    simp only [decide_eq_true_eq]
    omega
  have hsorted : ∀ rs : List Record,
      (sortByDatetime rs).Pairwise (fun a b => a.datetime ≤ b.datetime) := by
    intro rs
    have := pairwise_sortLe (fun a b : Record => decide (a.datetime ≤ b.datetime)) htrans htot rs
    exact this.imp (fun h => by simpa using h)
  refine ⟨?_, ?_, ?_⟩
  · intro rs
    exact ⟨sortLe_perm _ rs, hsorted rs⟩
  · intro rs
    constructor
    · induction rs with
      | nil => rfl
      | cons r tl ih =>
        by_cases h : ioSchemeValid r
        · simp [ioFilterKept, h, List.filter_cons, ih]
        · simp [ioFilterKept, h, List.filter_cons, ih]
    · induction rs with
      | nil => rfl
      | cons r tl ih =>
        by_cases h : ioSchemeValid r
        · simp [ioFilterIgnoredAll, h, List.countP_cons, ih]
        · simp [ioFilterIgnoredAll, h, List.countP_cons, ih]
          omega
  · intro rs
    have hkept : ioFilterKept rs = rs.filter ioSchemeValid := by
      induction rs with
      | nil => rfl
      | cons r tl ih =>
        by_cases h : ioSchemeValid r
        · simp [ioFilterKept, h, List.filter_cons, ih]
        · simp [ioFilterKept, h, List.filter_cons, ih]
    constructor
    · rw [show (filter_record rs).1 = sortByDatetime (dedupFirst (ioFilterKept rs)) from rfl,
        hkept]
      exact sortLe_perm _ _
    · rw [show (filter_record rs).1 = sortByDatetime (dedupFirst (ioFilterKept rs)) from rfl]
      exact hsorted _

/-- C10: on a non-empty partition whose first record has a correspondent,
`number_of_contacts` with the default threshold `more = 1` counts exactly the
distinct correspondents with strictly more than one qualifying record, where
a record qualifies iff its duration is absent or strictly greater than 5
seconds; hence a contact with at most one record, or only calls of at most 5
seconds, is never counted. -/
theorem number_of_contacts_threshold (rs : List Record) (r0 : Record) (tl : List Record)
    (hrs : rs = r0 :: tl) (hc : r0.correspondent_id.isSome = true) :
    number_of_contacts 1 rs = some (countedContacts rs).length ∧
    (∀ c, (rs.filter (fun r => r.correspondent_id == c)).length ≤ 1 →
      c ∉ countedContacts rs) ∧
    (∀ c, (∀ r ∈ rs, r.correspondent_id = c → ∃ d, r.duration = some d ∧ d ≤ 5) →
      c ∉ countedContacts rs) := by
  have hqual : ∀ r : Record, qualifyingDuration r =
      (r.duration.isNone || r.duration.elim false (fun d => decide (5 < d))) := by
    intro r
    cases hd : r.duration with
    | none => simp [qualifyingDuration, hd]
    | some d => simp [qualifyingDuration, hd]
  have hA : ∀ c, ((rs.filter qualifyingDuration).map (fun r => r.correspondent_id)).count c =
      contactQualifyingCount rs c := by
    intro c
    rw [List.count_eq_countP, List.countP_map, List.countP_filter, contactQualifyingCount,
      ← List.countP_eq_length_filter]
    apply List.countP_congr
    intro r _
    simp [Function.comp, hqual r]
  refine ⟨?_, ?_, ?_⟩
  · have hmemiff : ∀ a, (decide (1 <
        ((rs.filter qualifyingDuration).map (fun r => r.correspondent_id)).count a)) = true →
        (a ∈ dedupFirst ((rs.filter qualifyingDuration).map (fun r => r.correspondent_id)) ↔
         a ∈ dedupFirst (rs.map (fun r => r.correspondent_id))) := by
      intro a hp
      rw [decide_eq_true_eq] at hp
      have hpos : 0 <
          ((rs.filter qualifyingDuration).map (fun r => r.correspondent_id)).count a := by
        omega
      have hin : a ∈ (rs.filter qualifyingDuration).map (fun r => r.correspondent_id) :=
        List.count_pos_iff.mp hpos
      rw [mem_dedupFirst, mem_dedupFirst]
      constructor
      · intro _
        obtain ⟨r, hr, hra⟩ := List.mem_map.mp hin
        exact List.mem_map.mpr ⟨r, List.mem_of_mem_filter hr, hra⟩
      · intro _
        exact hin
    have hcnt := countP_eq_of_nodup_mem_iff
      (fun k => decide (1 <
        ((rs.filter qualifyingDuration).map (fun r => r.correspondent_id)).count k))
      (nodup_dedupFirst ((rs.filter qualifyingDuration).map (fun r => r.correspondent_id)))
      (nodup_dedupFirst (rs.map (fun r => r.correspondent_id))) hmemiff
    have hcnt2 : (dedupFirst (rs.map (fun r => r.correspondent_id))).countP
        (fun k => decide (1 <
          ((rs.filter qualifyingDuration).map (fun r => r.correspondent_id)).count k)) =
        (dedupFirst (rs.map (fun r => r.correspondent_id))).countP
        (fun k => decide (1 < contactQualifyingCount rs k)) := by
      apply List.countP_congr
      intro c _
      simp [hA c]
    subst hrs
    simp only [number_of_contacts, hc, if_pos]
    rw [hcnt, hcnt2, countedContacts, ← List.countP_eq_length_filter]
  · intro c hle hmemC
    rw [countedContacts, List.mem_filter, decide_eq_true_eq] at hmemC
    obtain ⟨_, hq⟩ := hmemC
    have hle2 : contactQualifyingCount rs c ≤
        (rs.filter (fun r => r.correspondent_id == c)).length := by
      simp only [contactQualifyingCount]
      rw [← List.countP_eq_length_filter, ← List.countP_eq_length_filter]
      apply List.countP_mono_left
      intro r _ h
      rw [Bool.and_eq_true] at h
      exact h.1
    omega
  · intro c hall hmemC
    rw [countedContacts, List.mem_filter, decide_eq_true_eq] at hmemC
    obtain ⟨_, hq⟩ := hmemC
    have hz : contactQualifyingCount rs c = 0 := by
      simp only [contactQualifyingCount]
      rw [← List.countP_eq_length_filter, List.countP_eq_zero]
      intro r hr hcontra
      rw [Bool.and_eq_true] at hcontra
      obtain ⟨hcc, hqual2⟩ := hcontra
      have hceq : r.correspondent_id = c := by simpa using hcc
      obtain ⟨d, hd, hd5⟩ := hall r hr hceq
      rw [hd] at hqual2
      simp only [Option.isNone_some, Option.elim, Bool.false_or, decide_eq_true_eq] at hqual2
      exact absurd hqual2 (not_lt.mpr hd5)
    omega

/-- Witness for the C10 theorem: contact 1 has two long calls (counted),
contact 2 a single text (not counted), contact 3 only two short calls (not
counted), so exactly one contact is reported. -/
theorem number_of_contacts_threshold_witness :
    ((⟨some .call, some .din, some 1, 0, some 10, none⟩ : Record).correspondent_id.isSome
      = true) ∧
    number_of_contacts 1 exC10 = some 1 := by
  have h := number_of_contacts_threshold exC10
    ⟨some .call, some .din, some 1, 0, some 10, none⟩
    [⟨some .call, some .dout, some 1, 10, some 20, none⟩,
     ⟨some .text, some .din, some 2, 20, none, none⟩,
     ⟨some .call, some .din, some 3, 30, some 3, none⟩,
     ⟨some .call, some .dout, some 3, 40, some 4, none⟩]
    rfl (by decide)
  exact ⟨by decide, h.1.trans (by decide)⟩
